import Mathlib

/-!
Verification of `scripts/execute_z3py_docs.py` (z3guide snippet runner).

The script parses each markdown documentation file into a mistletoe AST,
extracts the fenced code blocks tagged `z3-python`, executes each snippet
(prefixed with a fixed import preamble) in a long-lived subinterpreter,
collects one `ExecutionResults` record per snippet, prints a stats block,
and exits 0 exactly when no snippet failed.

The embedding below models:
  - the mistletoe AST as a tree of nodes carrying `type`, `language`,
    `content` and `children` fields (the dict keys the script reads);
  - the generator `z3_snippets_from_ast` as a function returning the list
    of snippets yielded before any `assert` failure, together with the
    failure (generators are consumed lazily, so snippets yielded before a
    failing assertion have already been executed);
  - the subinterpreter `interp.exec` call as an oracle
    `O : Nat → ExecBehavior` giving the behavior of the k-th exec call of
    the run (success, `interpreters.ExecutionFailed`, or any other
    exception);
  - stdout as an ordered list of events (`print` lines and exec calls);
  - the driver `main` as explicit state passing over `RunState`.
-/

namespace Z3DocsExec

/-- A mistletoe AST node, as the renderered dict used by the script: a
`type` tag, the `language` of a code fence, the `content` of a raw-text
node, and the list of children.  Fields irrelevant for a given node kind
are simply unread. -/
inductive AstNode : Type where
  | node (type language content : String) (children : List AstNode)

/-- Field access `child["type"]`. -/
def AstNode.type : AstNode → String
  | .node t _ _ _ => t

/-- Field access `child["language"]`. -/
def AstNode.language : AstNode → String
  | .node _ l _ _ => l

/-- Field access `child["content"]`. -/
def AstNode.content : AstNode → String
  | .node _ _ c _ => c

/-- Field access `child["children"]`. -/
def AstNode.children : AstNode → List AstNode
  | .node _ _ _ cs => cs

/-- The two `assert` statements of `z3_snippets_from_ast` that can fail:
`assert len(child["children"]) == 1` and
`assert code_block["type"] == "RawText"`. -/
inductive ExtractError : Type where
  | wrongChildCount (n : Nat)
  | notRawText (childType : String)
deriving DecidableEq, Repr

/-- A matched code fence is well formed when it has exactly one child and
that child is a raw-text node (the structural precondition the asserts
check). -/
def wellFormedBlock (c : AstNode) : Bool :=
  match c.children with
  | [rt] => rt.type == "RawText"
  | _ => false

/-- The generator `z3_snippets_from_ast`, on the list of direct children
of the document root: the snippets yielded in order before any assertion
failure, paired with the assertion failure if one occurs.  A child whose
`type` is not `"CodeFence"`, or whose `language` is not `"z3-python"`, is
skipped. -/
def z3_snippets_from_children : List AstNode → List String × Option ExtractError
  | [] => ([], none)
  | child :: rest =>
    if child.type ≠ "CodeFence" then
      z3_snippets_from_children rest
    else if child.language ≠ "z3-python" then
      z3_snippets_from_children rest
    else
      match child.children with
      | [code_block] =>
        if code_block.type = "RawText" then
          let p := z3_snippets_from_children rest
          (code_block.content :: p.1, p.2)
        else ([], some (ExtractError.notRawText code_block.type))
      | other => ([], some (ExtractError.wrongChildCount other.length))

/-- The generator applied to the rendered document AST: it iterates over
`mistletoe_ast["children"]`, the direct children of the root. -/
def z3_snippets_from_ast (mistletoe_ast : AstNode) : List String × Option ExtractError :=
  z3_snippets_from_children mistletoe_ast.children

/-- The direct children of the root that pass both filters of the
generator (a code fence whose language tag is exactly `"z3-python"`). -/
def matchedBlocks (cs : List AstNode) : List AstNode :=
  cs.filter (fun c => c.type == "CodeFence" && c.language == "z3-python")

/-- The raw text content of a (well-formed) matched block: the `content`
of its single child. -/
def rawContent (c : AstNode) : String :=
  match c.children with
  | [rt] => rt.content
  | _ => ""

/-- The payload of an `interpreters.ExecutionFailed` exception; the
exception's textual detail is modeled abstractly by one string. -/
structure ExecutionFailed where
  detail : String
deriving DecidableEq, Repr

/-- What one `interp.exec` call does: return normally, raise
`interpreters.ExecutionFailed`, or raise some other exception. -/
inductive ExecBehavior : Type where
  | ok
  | raisesExecutionFailed (e : ExecutionFailed)
  | raisesOther (e : String)
deriving DecidableEq, Repr

/-- The `ExecutionFailed` payload carried by a behavior, if it raises
one. -/
def ExecBehavior.raisedFailure : ExecBehavior → Option ExecutionFailed
  | .raisesExecutionFailed e => some e
  | _ => none

/-- One stdout/execution event: a `print(line)` call, or the
`interp.exec(src)` call itself. -/
inductive Event : Type where
  | print (line : String)
  | execCall (src : String)
deriving DecidableEq, Repr

/-- The dataclass `ExecutionResults`: one outcome record per snippet. -/
structure ExecutionResults where
  file_name : String
  snippet_id : Nat
  error : Option ExecutionFailed
deriving DecidableEq, Repr

/-- The property `was_successful`: the error field is unset. -/
def ExecutionResults.was_successful (r : ExecutionResults) : Bool :=
  r.error.isNone

/-- The string `f"{execution_result}"` interpolated in `do_stats`: the
dataclass repr, carrying the file name, the snippet id and the error
detail (`None` when unset).  String quoting is rendered with plain
quotes; the exception repr is its abstract `detail`. -/
def ExecutionResults.pyRepr (r : ExecutionResults) : String :=
  "ExecutionResults(file_name=\x27" ++ r.file_name ++ "\x27, snippet_id=" ++
    toString r.snippet_id ++ ", error=" ++
    (match r.error with
     | none => "None"
     | some e => e.detail) ++ ")"

/-- The body of the `for execution_result in execution_results` loop of
`do_stats`, on the accumulator (s, total_count, error_count). -/
def do_stats_loop (acc : String × Nat × Nat) (execution_result : ExecutionResults) :
    String × Nat × Nat :=
  match acc with
  | (s, total_count, error_count) =>
    if execution_result.was_successful then
      (s, total_count + 1, error_count)
    else
      (s ++ execution_result.pyRepr ++ "\n", total_count + 1, error_count + 1)

/-- The function `do_stats`: folds over the outcome records building the
stats text, and returns the text together with the error count. -/
def do_stats (execution_results : List ExecutionResults) : String × Nat :=
  match execution_results.foldl do_stats_loop ("=== EXECUTION STATS ===\n", 0, 0) with
  | (s, total_count, error_count) =>
    (s ++ "There were " ++ toString error_count ++ " errors over " ++
       toString total_count ++ " snippets\n",
     error_count)

/-- The fixed preamble prepended to every snippet:
`textwrap.dedent("""\ from z3 import *\n""")`.  The literal has no leading
whitespace on its single non-empty line, so `dedent` is the identity on
it and the dedented value is recorded directly. -/
def preamble : String := "from z3 import *\n"

/-- The composed source `src = preamble + z3_snippet` submitted to
`interp.exec`. -/
def composed_src (z3_snippet : String) : String :=
  preamble ++ z3_snippet

/-- The events produced by one `execute_snippet(z3_snippet)` call, in
order: three prints framing the composed source, the `RESULT:` marker
line, then the `interp.exec(src)` call itself. -/
def execute_snippet_events (z3_snippet : String) : List Event :=
  [Event.print "```z3-python",
   Event.print (composed_src z3_snippet),
   Event.print "```",
   Event.print "RESULT:",
   Event.execCall (composed_src z3_snippet)]

/-- The driver's run-wide state: the collected outcome records, the
stdout/event log, and how many `interp.exec` calls happened so far (the
index into the oracle). -/
structure RunState where
  execution_results : List ExecutionResults
  events : List Event
  execCount : Nat
deriving DecidableEq, Repr

/-- How a run aborts instead of completing: an `AssertionError` from the
extractor, or an uncaught exception (anything other than
`interpreters.ExecutionFailed`) from an exec call.  Neither is caught
anywhere in the script. -/
inductive RunAbort : Type where
  | assertionFailed (e : ExtractError)
  | uncaught (e : String)
deriving DecidableEq, Repr

/-- A documentation file as the driver sees it after parsing: its name
and its rendered AST. -/
structure DocFile where
  name : String
  ast : AstNode

/-- The per-snippet header line printed by the driver loop. -/
def snippetHeader (i : Nat) (name : String) : String :=
  "=== Executing snippet #" ++ toString i ++ " in \"" ++ name ++ "\" ==="

/-- The per-file start marker line. -/
def fileStartLine (name : String) : String :=
  "=== VALIDATING FILE " ++ name ++ " - START ==="

/-- The per-file end marker line. -/
def fileEndLine (name : String) : String :=
  "=== FINISHED VALIDATING " ++ name ++ " ==="

/-- One iteration of the driver's snippet loop: print the header, run
`execute_snippet` (its prints, then the exec call, whose behavior the
oracle `O` gives at the current call index), and build the outcome
record.  The `try/except ExecutionFailed/finally` block appends the
record unconditionally; a caught `ExecutionFailed` is stored in the
record, while any other exception aborts after the `finally` append. -/
def run_snippet (O : Nat → ExecBehavior) (name : String) (i : Nat) (z3_snippet : String)
    (st : RunState) : RunState × Option RunAbort :=
  let evs := st.events ++ [Event.print (snippetHeader i name)] ++
    execute_snippet_events z3_snippet
  let record : ExecutionResults := { file_name := name, snippet_id := i, error := none }
  match O st.execCount with
  | ExecBehavior.ok =>
      ({ execution_results := st.execution_results ++ [record],
         events := evs, execCount := st.execCount + 1 }, none)
  | ExecBehavior.raisesExecutionFailed e =>
      ({ execution_results := st.execution_results ++ [{ record with error := some e }],
         events := evs, execCount := st.execCount + 1 }, none)
  | ExecBehavior.raisesOther e =>
      ({ execution_results := st.execution_results ++ [record],
         events := evs, execCount := st.execCount + 1 },
       some (RunAbort.uncaught e))

/-- The driver's snippet loop over the snippets yielded for one file,
with the 1-based counter `i` of `enumerate(..., start=1)`: an abort stops
the loop, otherwise processing continues with the next snippet. -/
def run_snippets (O : Nat → ExecBehavior) (name : String) :
    List String → Nat → RunState → RunState × Option RunAbort
  | [], _, st => (st, none)
  | s :: rest, i, st =>
    match run_snippet O name i s st with
    | (st1, some a) => (st1, some a)
    | (st1, none) => run_snippets O name rest (i + 1) st1

/-- Processing of one documentation file by `main`: print the start
marker, run the snippet loop over the yielded snippets; if the generator
ended in an assertion failure (and no exec call aborted first, since the
generator is consumed lazily and the failing assertion is only reached
after the earlier snippets ran) the `AssertionError` aborts the run;
otherwise print the end marker. -/
def run_file (O : Nat → ExecBehavior) (f : DocFile) (st : RunState) :
    RunState × Option RunAbort :=
  let st1 : RunState := { st with events := st.events ++ [Event.print (fileStartLine f.name)] }
  let p := z3_snippets_from_ast f.ast
  match run_snippets O f.name p.1 1 st1 with
  | (st2, some a) => (st2, some a)
  | (st2, none) =>
    match p.2 with
    | some e => (st2, some (RunAbort.assertionFailed e))
    | none => ({ st2 with events := st2.events ++ [Event.print (fileEndLine f.name)] }, none)

/-- The driver's file loop: files are processed in order; an abort stops
the run. -/
def run_files (O : Nat → ExecBehavior) : List DocFile → RunState → RunState × Option RunAbort
  | [], st => (st, none)
  | f :: rest, st =>
    match run_file O f st with
    | (st1, some a) => (st1, some a)
    | (st1, none) => run_files O rest st1

/-- The state at process start: no records, no output, no exec calls. -/
def initState : RunState :=
  { execution_results := [], events := [], execCount := 0 }

/-- The function `main`, over the parsed documentation files and the exec
oracle: run the file loop; on an abort the exception escapes `main`
(`Except.error`), otherwise print the stats block and return the exit
code `0 if error_count == 0 else 1`. -/
def main (O : Nat → ExecBehavior) (files : List DocFile) :
    RunState × Except RunAbort Nat :=
  match run_files O files initState with
  | (st, some a) => (st, Except.error a)
  | (st, none) =>
    match do_stats st.execution_results with
    | (msg, error_count) =>
      ({ st with events := st.events ++ [Event.print msg] },
       Except.ok (if error_count == 0 then 0 else 1))

/-- The records whose failure field is set. -/
def failedRecords (rs : List ExecutionResults) : List ExecutionResults :=
  rs.filter (fun r => r.error.isSome)

/-- The error count: how many records have their failure field set. -/
def errorCount (rs : List ExecutionResults) : Nat :=
  (failedRecords rs).length

/-- One repr line per record, in order. -/
def reprLines : List ExecutionResults → String
  | [] => ""
  | r :: rest => r.pyRepr ++ "\n" ++ reprLines rest

/-- The consecutive sequence numbers i, i+1, ..., i+n-1. -/
def seqIds (i : Nat) : Nat → List Nat
  | 0 => []
  | n + 1 => i :: seqIds (i + 1) n

/-- The records from position k onwards match the oracle: each record's
error field holds exactly the `ExecutionFailed` payload the oracle raised
at the corresponding call, and no call raised a foreign exception. -/
def recordsMatch (O : Nat → ExecBehavior) : Nat → List ExecutionResults → Prop
  | _, [] => True
  | k, r :: rest =>
    (r.error = ExecBehavior.raisedFailure (O k) ∧ ∀ e, O k ≠ ExecBehavior.raisesOther e) ∧
      recordsMatch O (k + 1) rest

/-- Run-state invariant tying the collected records to the oracle: one
exec call per record, in order. -/
def stateMatches (O : Nat → ExecBehavior) (st : RunState) : Prop :=
  st.execCount = st.execution_results.length ∧ recordsMatch O 0 st.execution_results

/-! Concrete sample inputs used to instantiate the theorems. -/

/-- A well-formed code fence with the given language tag and raw text
content. -/
def sampleFence (lang text : String) : AstNode :=
  AstNode.node "CodeFence" lang "" [AstNode.node "RawText" "" text []]

/-- A paragraph node nesting a tagged fence: nested fences are never
examined by the extractor. -/
def sampleWrapper : AstNode :=
  AstNode.node "Paragraph" "" "" [sampleFence "z3-python" "nested"]

/-- A document with two matching fences, a nested one, a fence in a
different language and a fence differing only in case. -/
def sampleDoc : AstNode :=
  AstNode.node "Document" "" ""
    [sampleFence "z3-python" "x = 1", sampleWrapper, sampleFence "python" "y = 1",
     sampleFence "Z3-Python" "ignored", sampleFence "z3-python" "print(2)"]

/-- A document whose second matched fence has no children, so extraction
hits the child-count assertion after yielding the first snippet. -/
def sampleBadDoc : AstNode :=
  AstNode.node "Document" "" ""
    [sampleFence "z3-python" "a = 1", AstNode.node "CodeFence" "z3-python" "" []]

/-- An oracle under which every exec call returns normally. -/
def oracleAllOk : Nat → ExecBehavior := fun _ => ExecBehavior.ok

/-- An oracle under which the run's second exec call raises
`ExecutionFailed` and all others return normally. -/
def oracleSecondFails : Nat → ExecBehavior := fun k =>
  if k = 1 then ExecBehavior.raisesExecutionFailed { detail := "boom" }
  else ExecBehavior.ok

/-- An oracle under which every exec call raises `ExecutionFailed`. -/
def oracleAllFail : Nat → ExecBehavior := fun _ =>
  ExecBehavior.raisesExecutionFailed { detail := "boom" }

/-- An oracle under which every exec call raises a foreign exception. -/
def oracleOtherRaises : Nat → ExecBehavior := fun _ =>
  ExecBehavior.raisesOther "KeyboardInterrupt"

/-! Helper lemmas about the reporter. -/

lemma failedRecords_cons_none (r : ExecutionResults) (rs : List ExecutionResults)
    (h : r.error = none) : failedRecords (r :: rs) = failedRecords rs := by
  simp [failedRecords, List.filter_cons, h]

lemma failedRecords_cons_some (r : ExecutionResults) (rs : List ExecutionResults)
    (e : ExecutionFailed) (h : r.error = some e) :
    failedRecords (r :: rs) = r :: failedRecords rs := by
  simp [failedRecords, List.filter_cons, h]

lemma errorCount_append (l₁ l₂ : List ExecutionResults) :
    errorCount (l₁ ++ l₂) = errorCount l₁ + errorCount l₂ := by
  simp [errorCount, failedRecords, List.filter_append]

lemma errorCount_cons_some (r : ExecutionResults) (rs : List ExecutionResults)
    (e : ExecutionFailed) (h : r.error = some e) :
    errorCount (r :: rs) = errorCount rs + 1 := by
  simp [errorCount, failedRecords_cons_some r rs e h]

lemma errorCount_cons_none (r : ExecutionResults) (rs : List ExecutionResults)
    (h : r.error = none) : errorCount (r :: rs) = errorCount rs := by
  simp [errorCount, failedRecords_cons_none r rs h]

lemma do_stats_foldl (rs : List ExecutionResults) :
    ∀ s t e, rs.foldl do_stats_loop (s, t, e) =
      (s ++ reprLines (failedRecords rs), t + rs.length, e + errorCount rs) := by
  induction rs with
  | nil =>
    intro s t e
    simp [failedRecords, errorCount, reprLines]
  | cons r rest ih =>
    intro s t e
    cases hr : r.error with
    | none =>
      have hsucc : r.was_successful = true := by
        simp [ExecutionResults.was_successful, hr]
      rw [List.foldl_cons, do_stats_loop, hsucc]
      simp only [if_pos rfl, ih, failedRecords_cons_none r rest hr, List.length_cons,
        errorCount_cons_none r rest hr]
      refine Prod.ext rfl (Prod.ext ?_ ?_)
      · simp; omega
      · simp
    | some e2 =>
      have hsucc : r.was_successful = false := by
        simp [ExecutionResults.was_successful, hr]
      rw [List.foldl_cons, do_stats_loop, hsucc]
      simp only [Bool.false_eq_true, if_false, ih, failedRecords_cons_some r rest e2 hr,
        List.length_cons, errorCount_cons_some r rest e2 hr, reprLines]
      refine Prod.ext ?_ (Prod.ext ?_ ?_)
      · simp [String.append_assoc]
      · simp; omega
      · simp; omega

lemma do_stats_spec (rs : List ExecutionResults) :
    do_stats rs =
      ("=== EXECUTION STATS ===\n" ++ reprLines (failedRecords rs) ++
         "There were " ++ toString (errorCount rs) ++ " errors over " ++
         toString rs.length ++ " snippets\n",
       errorCount rs) := by
  unfold do_stats
  rw [do_stats_foldl]
  simp [String.append_assoc]

/-! Helper lemmas about the snippet extractor. -/

lemma z3_snippets_skip_nonfence (c : AstNode) (rest : List AstNode)
    (h1 : c.type ≠ "CodeFence") :
    z3_snippets_from_children (c :: rest) = z3_snippets_from_children rest := by
  simp [z3_snippets_from_children, h1]

lemma z3_snippets_skip_lang (c : AstNode) (rest : List AstNode)
    (h1 : c.type = "CodeFence") (h2 : c.language ≠ "z3-python") :
    z3_snippets_from_children (c :: rest) = z3_snippets_from_children rest := by
  simp [z3_snippets_from_children, h1, h2]

lemma z3_snippets_matched (c : AstNode) (rest : List AstNode) (cb : AstNode)
    (h1 : c.type = "CodeFence") (h2 : c.language = "z3-python")
    (hc : c.children = [cb]) (hrt : cb.type = "RawText") :
    z3_snippets_from_children (c :: rest) =
      (cb.content :: (z3_snippets_from_children rest).1,
       (z3_snippets_from_children rest).2) := by
  simp [z3_snippets_from_children, h1, h2, hc, hrt]

lemma matchedBlocks_cons_skip (c : AstNode) (rest : List AstNode)
    (h : ¬ (c.type = "CodeFence" ∧ c.language = "z3-python")) :
    matchedBlocks (c :: rest) = matchedBlocks rest := by
  have hb : (c.type == "CodeFence" && c.language == "z3-python") = false := by
    rcases Decidable.not_and_iff_or_not.mp h with h' | h' <;> simp [h']
  simp [matchedBlocks, List.filter_cons, hb]

lemma matchedBlocks_cons_matched (c : AstNode) (rest : List AstNode)
    (h1 : c.type = "CodeFence") (h2 : c.language = "z3-python") :
    matchedBlocks (c :: rest) = c :: matchedBlocks rest := by
  simp [matchedBlocks, List.filter_cons, h1, h2]

/-- When the generator is exhausted without an assertion failure, it
yielded exactly the raw contents of the matched blocks, in document
order. -/
lemma z3_snippets_ok (cs : List AstNode) :
    ∀ snips, z3_snippets_from_children cs = (snips, none) →
      snips = (matchedBlocks cs).map rawContent := by
  induction cs with
  | nil =>
    intro snips h
    simp [z3_snippets_from_children] at h
    simp [matchedBlocks, ← h]
  | cons c rest ih =>
    intro snips h
    by_cases h1 : c.type = "CodeFence"
    · by_cases h2 : c.language = "z3-python"
      · cases hc : c.children with
        | nil =>
          rw [z3_snippets_from_children] at h
          simp [h1, h2, hc] at h
        | cons cb tl =>
          cases tl with
          | nil =>
            by_cases hrt : cb.type = "RawText"
            · rw [z3_snippets_matched c rest cb h1 h2 hc hrt] at h
              rw [Prod.mk.injEq] at h
              obtain ⟨hs, he⟩ := h
              have hrest := ih (z3_snippets_from_children rest).1
                (by rw [← he])
              rw [matchedBlocks_cons_matched c rest h1 h2]
              simp [← hs, hrest, rawContent, hc]
            · rw [z3_snippets_from_children] at h
              simp [h1, h2, hc, hrt] at h
          | cons d tl2 =>
            rw [z3_snippets_from_children] at h
            simp [h1, h2, hc] at h
      · rw [z3_snippets_skip_lang c rest h1 h2] at h
        rw [matchedBlocks_cons_skip c rest (by simp [h2])]
        exact ih snips h
    · rw [z3_snippets_skip_nonfence c rest h1] at h
      rw [matchedBlocks_cons_skip c rest (by simp [h1])]
      exact ih snips h

/-- The generator ends in an assertion failure exactly when some matched
block is malformed (child count different from one, or a non-raw-text
child). -/
lemma z3_snippets_err_iff (cs : List AstNode) :
    (z3_snippets_from_children cs).2 ≠ none ↔
      ∃ c ∈ cs, c.type = "CodeFence" ∧ c.language = "z3-python" ∧
        wellFormedBlock c = false := by
  induction cs with
  | nil => simp [z3_snippets_from_children]
  | cons c rest ih =>
    by_cases h1 : c.type = "CodeFence"
    · by_cases h2 : c.language = "z3-python"
      · cases hc : c.children with
        | nil =>
          rw [z3_snippets_from_children]
          simp only [h1, h2, hc]
          simp [h1, h2, wellFormedBlock, hc]
        | cons cb tl =>
          cases tl with
          | nil =>
            by_cases hrt : cb.type = "RawText"
            · rw [z3_snippets_matched c rest cb h1 h2 hc hrt]
              have hwf : wellFormedBlock c = true := by
                simp [wellFormedBlock, hc, hrt]
              simp only [List.mem_cons]
              constructor
              · intro h
                obtain ⟨d, hd, hprops⟩ := ih.mp h
                exact ⟨d, Or.inr hd, hprops⟩
              · intro ⟨d, hd, hprops⟩
                rcases hd with hd | hd
                · rw [hd] at hprops
                  rw [hwf] at hprops
                  simp at hprops
                · exact ih.mpr ⟨d, hd, hprops⟩
            · rw [z3_snippets_from_children]
              simp only [h1, h2, hc, hrt]
              simp [h1, h2, wellFormedBlock, hc, hrt]
          | cons d tl2 =>
            rw [z3_snippets_from_children]
            simp only [h1, h2, hc]
            simp [h1, h2, wellFormedBlock, hc]
      · rw [z3_snippets_skip_lang c rest h1 h2]
        rw [ih]
        simp [h2]
    · rw [z3_snippets_skip_nonfence c rest h1]
      rw [ih]
      simp [h1]

/-- Inserting a node that is not itself a code fence anywhere among the
root's children leaves the extraction untouched, whatever that node
nests. -/
lemma z3_snippets_insert_nonfence (w : AstNode) (hw : w.type ≠ "CodeFence") :
    ∀ pre post, z3_snippets_from_children (pre ++ w :: post) =
      z3_snippets_from_children (pre ++ post) := by
  intro pre
  induction pre with
  | nil =>
    intro post
    simpa using z3_snippets_skip_nonfence w post hw
  | cons c rest ih =>
    intro post
    by_cases h1 : c.type = "CodeFence"
    · by_cases h2 : c.language = "z3-python"
      · cases hc : c.children with
        | nil =>
          rw [List.cons_append, List.cons_append, z3_snippets_from_children,
            z3_snippets_from_children]
          simp [h1, h2, hc]
        | cons cb tl =>
          cases tl with
          | nil =>
            by_cases hrt : cb.type = "RawText"
            · rw [List.cons_append, List.cons_append,
                z3_snippets_matched c _ cb h1 h2 hc hrt,
                z3_snippets_matched c _ cb h1 h2 hc hrt, ih post]
            · rw [List.cons_append, List.cons_append, z3_snippets_from_children,
                z3_snippets_from_children]
              simp [h1, h2, hc, hrt]
          | cons d tl2 =>
            rw [List.cons_append, List.cons_append, z3_snippets_from_children,
              z3_snippets_from_children]
            simp [h1, h2, hc]
      · rw [List.cons_append, List.cons_append,
          z3_snippets_skip_lang c _ h1 h2, z3_snippets_skip_lang c _ h1 h2, ih post]
    · rw [List.cons_append, List.cons_append,
        z3_snippets_skip_nonfence c _ h1, z3_snippets_skip_nonfence c _ h1, ih post]

/-! Helper lemmas about the driver loop. -/

/-- One snippet iteration, as a single equation: the header and the
`execute_snippet` events are appended, exactly one record is appended
whose error field holds whatever `ExecutionFailed` the oracle raised at
the current call, the call counter advances by one, and the iteration
aborts exactly when the oracle raised a foreign exception. -/
lemma run_snippet_spec (O : Nat → ExecBehavior) (name : String) (i : Nat) (s : String)
    (st : RunState) :
    run_snippet O name i s st =
      ({ execution_results := st.execution_results ++
           [{ file_name := name, snippet_id := i,
              error := ExecBehavior.raisedFailure (O st.execCount) }],
         events := st.events ++ [Event.print (snippetHeader i name)] ++
           execute_snippet_events s,
         execCount := st.execCount + 1 },
       match O st.execCount with
       | ExecBehavior.raisesOther e => some (RunAbort.uncaught e)
       | _ => none) := by
  cases hO : O st.execCount <;>
    simp [run_snippet, hO, ExecBehavior.raisedFailure]

/-- A completed snippet loop appends one record per snippet, with the
sequence numbers counting up from the starting index and the file name
stamped on every record. -/
lemma run_snippets_ok_append (O : Nat → ExecBehavior) (name : String) :
    ∀ (snips : List String) (i : Nat) (st st' : RunState),
      run_snippets O name snips i st = (st', none) →
      ∃ newPart, st'.execution_results = st.execution_results ++ newPart ∧
        newPart.map ExecutionResults.snippet_id = seqIds i snips.length ∧
        ∀ r ∈ newPart, r.file_name = name := by
  intro snips
  induction snips with
  | nil =>
    intro i st st' h
    rw [run_snippets, Prod.mk.injEq] at h
    refine ⟨[], ?_, rfl, by simp⟩
    simp [← h.1]
  | cons s rest ih =>
    intro i st st' h
    rw [run_snippets, run_snippet_spec] at h
    cases hO : O st.execCount with
    | raisesOther e =>
      rw [hO] at h
      simp at h
    | ok =>
      rw [hO] at h
      simp only at h
      obtain ⟨np, hnp, hids, hname⟩ := ih (i + 1) _ st' h
      refine ⟨{ file_name := name, snippet_id := i,
                error := ExecBehavior.raisedFailure ExecBehavior.ok } :: np, ?_, ?_, ?_⟩
      · simp only [hnp]
        simp
      · simp [hids, seqIds]
      · intro r hr
        rcases List.mem_cons.mp hr with hr | hr
        · rw [hr]
        · exact hname r hr
    | raisesExecutionFailed e =>
      rw [hO] at h
      simp only at h
      obtain ⟨np, hnp, hids, hname⟩ := ih (i + 1) _ st' h
      refine ⟨{ file_name := name, snippet_id := i,
                error := ExecBehavior.raisedFailure (ExecBehavior.raisesExecutionFailed e) }
                :: np, ?_, ?_, ?_⟩
      · simp only [hnp]
        simp
      · simp [hids, seqIds]
      · intro r hr
        rcases List.mem_cons.mp hr with hr | hr
        · rw [hr]
        · exact hname r hr

/-- A completed `run_file` call decomposes into a completed snippet loop,
a generator that ended without assertion failure, and the end-marker
print. -/
lemma run_file_ok_elim (O : Nat → ExecBehavior) (f : DocFile) (st st' : RunState)
    (h : run_file O f st = (st', none)) :
    ∃ st2, run_snippets O f.name (z3_snippets_from_ast f.ast).1 1
        { st with events := st.events ++ [Event.print (fileStartLine f.name)] } =
          (st2, none) ∧
      (z3_snippets_from_ast f.ast).2 = none ∧
      st' = { st2 with events := st2.events ++ [Event.print (fileEndLine f.name)] } := by
  simp only [run_file] at h
  split at h
  · simp at h
  · split at h
    · simp at h
    · rw [Prod.mk.injEq] at h
      exact ⟨_, by assumption, by assumption, h.1.symm⟩

/-- When the snippet loop for a file completes but the generator ended in
an assertion failure, `run_file` aborts with that `AssertionError`. -/
lemma run_file_assert (O : Nat → ExecBehavior) (f : DocFile) (st st2 : RunState)
    (e : ExtractError)
    (hsn : run_snippets O f.name (z3_snippets_from_ast f.ast).1 1
      { st with events := st.events ++ [Event.print (fileStartLine f.name)] } = (st2, none))
    (herr : (z3_snippets_from_ast f.ast).2 = some e) :
    run_file O f st = (st2, some (RunAbort.assertionFailed e)) := by
  simp only [run_file, hsn, herr]

/-- When the generator for a file ends without assertion failure and the
snippet loop completes, `run_file` completes, appending only the
end-marker print. -/
lemma run_file_ok_build (O : Nat → ExecBehavior) (f : DocFile) (st st2 : RunState)
    (hsn : run_snippets O f.name (z3_snippets_from_ast f.ast).1 1
      { st with events := st.events ++ [Event.print (fileStartLine f.name)] } = (st2, none))
    (herr : (z3_snippets_from_ast f.ast).2 = none) :
    run_file O f st =
      ({ st2 with events := st2.events ++ [Event.print (fileEndLine f.name)] }, none) := by
  simp only [run_file, hsn, herr]

/-! The invariant tying records to the oracle, and its preservation. -/

lemma recordsMatch_append (O : Nat → ExecBehavior) :
    ∀ (l : List ExecutionResults) (k : Nat) (r : ExecutionResults),
      recordsMatch O k l →
      r.error = ExecBehavior.raisedFailure (O (k + l.length)) →
      (∀ e, O (k + l.length) ≠ ExecBehavior.raisesOther e) →
      recordsMatch O k (l ++ [r]) := by
  intro l
  induction l with
  | nil =>
    intro k r _ h1 h2
    exact ⟨⟨by simpa using h1, by simpa using h2⟩, trivial⟩
  | cons a rest ih =>
    intro k r h h1 h2
    have hk : k + (a :: rest).length = k + 1 + rest.length := by
      simp
      omega
    refine ⟨h.1, ih (k + 1) r h.2 ?_ ?_⟩
    · rw [← hk]
      exact h1
    · rw [← hk]
      exact h2

lemma recordsMatch_get (O : Nat → ExecBehavior) :
    ∀ (rs : List ExecutionResults) (k j : Nat) (hj : j < rs.length),
      recordsMatch O k rs →
      (rs.get ⟨j, hj⟩).error = ExecBehavior.raisedFailure (O (k + j)) ∧
        ∀ e, O (k + j) ≠ ExecBehavior.raisesOther e := by
  intro rs
  induction rs with
  | nil =>
    intro k j hj
    simp at hj
  | cons a rest ih =>
    intro k j hj h
    cases j with
    | zero =>
      simpa using h.1
    | succ j2 =>
      have hrec := ih (k + 1) j2 (by simpa using hj) h.2
      have hk : k + 1 + j2 = k + (j2 + 1) := by omega
      rw [hk] at hrec
      simpa using hrec

lemma stateMatches_init (O : Nat → ExecBehavior) : stateMatches O initState :=
  ⟨rfl, trivial⟩

lemma run_snippets_inv (O : Nat → ExecBehavior) (name : String) :
    ∀ snips i st st', run_snippets O name snips i st = (st', none) →
      stateMatches O st → stateMatches O st' := by
  intro snips
  induction snips with
  | nil =>
    intro i st st' h hm
    rw [run_snippets, Prod.mk.injEq] at h
    rw [← h.1]
    exact hm
  | cons s rest ih =>
    intro i st st' h hm
    rw [run_snippets, run_snippet_spec] at h
    cases hO : O st.execCount with
    | raisesOther e =>
      rw [hO] at h
      simp at h
    | ok =>
      rw [hO] at h
      simp only at h
      have hidx : O (0 + st.execution_results.length) = ExecBehavior.ok := by
        rw [Nat.zero_add, ← hm.1]
        exact hO
      refine ih (i + 1) _ st' h ⟨by simp [hm.1], ?_⟩
      refine recordsMatch_append O _ 0 _ hm.2 ?_ ?_
      · rw [hidx]
      · rw [hidx]
        intro e hcontra
        exact ExecBehavior.noConfusion hcontra
    | raisesExecutionFailed e =>
      rw [hO] at h
      simp only at h
      have hidx : O (0 + st.execution_results.length) =
          ExecBehavior.raisesExecutionFailed e := by
        rw [Nat.zero_add, ← hm.1]
        exact hO
      refine ih (i + 1) _ st' h ⟨by simp [hm.1], ?_⟩
      refine recordsMatch_append O _ 0 _ hm.2 ?_ ?_
      · rw [hidx]
      · rw [hidx]
        intro e2 hcontra
        exact ExecBehavior.noConfusion hcontra

lemma run_file_inv (O : Nat → ExecBehavior) (f : DocFile) (st st' : RunState)
    (h : run_file O f st = (st', none)) (hm : stateMatches O st) :
    stateMatches O st' := by
  obtain ⟨st2, hsn, herr, hst⟩ := run_file_ok_elim O f st st' h
  have h2 := run_snippets_inv O f.name _ 1 _ st2 hsn hm
  rw [hst]
  exact h2

lemma run_files_inv (O : Nat → ExecBehavior) :
    ∀ files st st', run_files O files st = (st', none) →
      stateMatches O st → stateMatches O st' := by
  intro files
  induction files with
  | nil =>
    intro st st' h hm
    rw [run_files, Prod.mk.injEq] at h
    rw [← h.1]
    exact hm
  | cons f rest ih =>
    intro st st' h hm
    rw [run_files] at h
    cases hrf : run_file O f st with
    | mk st1 ab =>
      rw [hrf] at h
      cases ab with
      | some a => simp at h
      | none =>
        simp only at h
        exact ih st1 st' h (run_file_inv O f st st1 hrf hm)

/-- A `main` call that returns an exit code decomposes into a completed
file loop followed by the stats computation; the printed stats do not
change the records. -/
lemma main_ok_elim (O : Nat → ExecBehavior) (files : List DocFile) (st : RunState) (c : Nat)
    (h : main O files = (st, Except.ok c)) :
    ∃ st0, run_files O files initState = (st0, none) ∧
      st.execution_results = st0.execution_results ∧
      c = (if errorCount st0.execution_results = 0 then 0 else 1) := by
  unfold main at h
  cases hrf : run_files O files initState with
  | mk st0 ab =>
    rw [hrf] at h
    cases ab with
    | some a => simp at h
    | none =>
      simp only at h
      rw [do_stats_spec] at h
      simp only [Prod.mk.injEq, Except.ok.injEq] at h
      refine ⟨st0, rfl, ?_, ?_⟩
      · rw [← h.1]
      · rw [← h.2]
        simp [beq_iff_eq]

lemma seqIds_length : ∀ i n, (seqIds i n).length = n := by
  intro i n
  induction n generalizing i with
  | zero => rfl
  | succ m ih => simp [seqIds, ih]

/-! The claims. -/

/-- C1: for every completed run, the process exit status is 0 iff the
error count (number of outcome records whose failure field is set) is 0;
otherwise it is 1, and no other exit code is produced. -/
theorem C1_exit_code (O : Nat → ExecBehavior) (files : List DocFile) (st : RunState)
    (c : Nat) (h : main O files = (st, Except.ok c)) :
    (c = 0 ↔ errorCount st.execution_results = 0) ∧ (c = 0 ∨ c = 1) := by
  obtain ⟨st0, hrf, hres, hc⟩ := main_ok_elim O files st c h
  rw [hres]
  by_cases hz : errorCount st0.execution_results = 0
  · rw [hc, if_pos hz]
    exact ⟨⟨fun _ => hz, fun _ => rfl⟩, Or.inl rfl⟩
  · rw [hc, if_neg hz]
    exact ⟨⟨fun h1 => (Nat.one_ne_zero h1).elim, fun h1 => (hz h1).elim⟩, Or.inr rfl⟩

/-- Witness for C1: a run over one file with two snippets where the
second exec call fails completes with exit code 1. -/
theorem C1_exit_code_witness :
    ((1 : Nat) = 0 ↔
      errorCount (main oracleSecondFails
        [{ name := "a.md", ast := sampleDoc }]).1.execution_results = 0) ∧
    ((1 : Nat) = 0 ∨ (1 : Nat) = 1) :=
  C1_exit_code oracleSecondFails [{ name := "a.md", ast := sampleDoc }] _ 1 (by rfl)

/-- C2: a file whose parsed tree yields N well-formed matching fenced
blocks contributes, when its processing completes, exactly N outcome
records carrying sequence numbers 1..N in document order and the file's
name; a file with zero matching blocks completes without error and
contributes zero records. -/
theorem C2_per_file_records (O : Nat → ExecBehavior) (f : DocFile) (snips : List String)
    (st : RunState) (hx : z3_snippets_from_ast f.ast = (snips, none)) :
    (∀ st', run_file O f st = (st', none) →
      ∃ newPart, st'.execution_results = st.execution_results ++ newPart ∧
        newPart.length = snips.length ∧
        newPart.map ExecutionResults.snippet_id = seqIds 1 snips.length ∧
        ∀ r ∈ newPart, r.file_name = f.name) ∧
    (snips = [] → ∃ st', run_file O f st = (st', none) ∧
      st'.execution_results = st.execution_results) := by
  constructor
  · intro st' h
    obtain ⟨st2, hsn, herr, hst⟩ := run_file_ok_elim O f st st' h
    rw [hx] at hsn
    obtain ⟨np, hnp, hids, hname⟩ := run_snippets_ok_append O f.name snips 1 _ st2 hsn
    refine ⟨np, ?_, ?_, hids, hname⟩
    · rw [hst]
      exact hnp
    · have hlen := congrArg List.length hids
      simpa [seqIds_length] using hlen
  · intro hnil
    have h1 : (z3_snippets_from_ast f.ast).1 = [] := by rw [hx, hnil]
    have h2 : (z3_snippets_from_ast f.ast).2 = none := by rw [hx]
    have hsn : run_snippets O f.name (z3_snippets_from_ast f.ast).1 1
        { st with events := st.events ++ [Event.print (fileStartLine f.name)] } =
        ({ st with events := st.events ++ [Event.print (fileStartLine f.name)] },
         none) := by
      rw [h1, run_snippets]
    exact ⟨_, run_file_ok_build O f st _ hsn h2, rfl⟩

/-- Witness for C2: the sample document yields two snippets and its
processing appends two records numbered 1 and 2. -/
theorem C2_per_file_records_witness :
    ∃ newPart,
      (run_file oracleSecondFails { name := "a.md", ast := sampleDoc }
        initState).1.execution_results = initState.execution_results ++ newPart ∧
      newPart.length = (["x = 1", "print(2)"] : List String).length ∧
      newPart.map ExecutionResults.snippet_id =
        seqIds 1 (["x = 1", "print(2)"] : List String).length ∧
      ∀ r ∈ newPart,
        r.file_name = ({ name := "a.md", ast := sampleDoc } : DocFile).name :=
  (C2_per_file_records oracleSecondFails { name := "a.md", ast := sampleDoc }
    ["x = 1", "print(2)"] initState (by rfl)).1 _ (by rfl)

/-- C3: after a completed run, each record's failure field is set iff
that snippet's exec call raised `ExecutionFailed`, in which case it holds
the captured failure; a snippet that executed without raising leaves it
unset. -/
theorem C3_failure_iff_raised (O : Nat → ExecBehavior) (files : List DocFile)
    (st : RunState) (c : Nat) (h : main O files = (st, Except.ok c))
    (k : Nat) (hk : k < st.execution_results.length) :
    (∃ e, O k = ExecBehavior.raisesExecutionFailed e ∧
       (st.execution_results.get ⟨k, hk⟩).error = some e) ∨
    (O k = ExecBehavior.ok ∧ (st.execution_results.get ⟨k, hk⟩).error = none) := by
  obtain ⟨st0, hrf, hres, hc⟩ := main_ok_elim O files st c h
  have hm := run_files_inv O files initState st0 hrf (stateMatches_init O)
  have hm2 := hm.2
  rw [← hres] at hm2
  have hget := recordsMatch_get O st.execution_results 0 k hk hm2
  rw [Nat.zero_add] at hget
  cases hO : O k with
  | ok =>
    refine Or.inr ⟨rfl, ?_⟩
    rw [hget.1, hO]
    rfl
  | raisesExecutionFailed e =>
    refine Or.inl ⟨e, rfl, ?_⟩
    rw [hget.1, hO]
    rfl
  | raisesOther e =>
    exact absurd hO (hget.2 e)

/-- Witness for C3 at the failing snippet of a concrete run: record 1
carries exactly the raised failure. -/
theorem C3_failure_iff_raised_witness :
    (∃ e, oracleSecondFails 1 = ExecBehavior.raisesExecutionFailed e ∧
       ((main oracleSecondFails
          [{ name := "a.md", ast := sampleDoc }]).1.execution_results.get
            ⟨1, by decide⟩).error = some e) ∨
    (oracleSecondFails 1 = ExecBehavior.ok ∧
       ((main oracleSecondFails
          [{ name := "a.md", ast := sampleDoc }]).1.execution_results.get
            ⟨1, by decide⟩).error = none) :=
  C3_failure_iff_raised oracleSecondFails [{ name := "a.md", ast := sampleDoc }]
    _ 1 (by rfl) 1 (by decide)

/-- C4: a snippet whose exec call raises `ExecutionFailed` has the
failure caught at the call site and recorded, its record appended to the
run-wide sequence, the error count grows by exactly one, and the loop
continues with the next snippet instead of aborting. -/
theorem C4_execution_failed_recovered (O : Nat → ExecBehavior) (name : String) (i : Nat)
    (s : String) (rest : List String) (st : RunState) (e : ExecutionFailed)
    (hO : O st.execCount = ExecBehavior.raisesExecutionFailed e) :
    (run_snippet O name i s st).2 = none ∧
    (run_snippet O name i s st).1.execution_results = st.execution_results ++
      [{ file_name := name, snippet_id := i, error := some e }] ∧
    errorCount (run_snippet O name i s st).1.execution_results =
      errorCount st.execution_results + 1 ∧
    run_snippets O name (s :: rest) i st =
      run_snippets O name rest (i + 1) (run_snippet O name i s st).1 := by
  have hspec := run_snippet_spec O name i s st
  rw [hO] at hspec
  refine ⟨?_, ?_, ?_, ?_⟩
  · rw [hspec]
  · rw [hspec]
    rfl
  · rw [hspec]
    show errorCount
        (st.execution_results ++
          [{ file_name := name, snippet_id := i, error := some e }]) =
      errorCount st.execution_results + 1
    rw [errorCount_append]
    rfl
  · rw [run_snippets, hspec]

/-- Witness for C4: the first snippet of a concrete loop fails, is
recorded, and the loop moves on to the second snippet. -/
theorem C4_execution_failed_recovered_witness :
    (run_snippet oracleAllFail "a.md" 1 "x = 1" initState).2 = none ∧
    (run_snippet oracleAllFail "a.md" 1 "x = 1" initState).1.execution_results =
      initState.execution_results ++
        [{ file_name := "a.md", snippet_id := 1, error := some { detail := "boom" } }] ∧
    errorCount
        (run_snippet oracleAllFail "a.md" 1 "x = 1" initState).1.execution_results =
      errorCount initState.execution_results + 1 ∧
    run_snippets oracleAllFail "a.md" ["x = 1", "y = 1"] 1 initState =
      run_snippets oracleAllFail "a.md" ["y = 1"] 2
        (run_snippet oracleAllFail "a.md" 1 "x = 1" initState).1 :=
  C4_execution_failed_recovered oracleAllFail "a.md" 1 "x = 1" ["y = 1"] initState
    { detail := "boom" } (by rfl)

/-- C5: when extraction completes, it has yielded exactly the raw text
contents of the fences whose language tag is the exact, case-sensitive
string "z3-python", unmodified and in document order; fences with any
other tag yield nothing. -/
theorem C5_extractor_yields (ast : AstNode) (snips : List String)
    (h : z3_snippets_from_ast ast = (snips, none)) :
    snips = (matchedBlocks ast.children).map rawContent :=
  z3_snippets_ok ast.children snips h

/-- Witness for C5: on the sample document, with fences tagged
"python" and "Z3-Python" present, exactly the two "z3-python" contents
are yielded. -/
theorem C5_extractor_yields_witness :
    (["x = 1", "print(2)"] : List String) =
      (matchedBlocks sampleDoc.children).map rawContent :=
  C5_extractor_yields sampleDoc ["x = 1", "print(2)"] (by rfl)

/-- C6: extraction raises a fatal assertion failure iff some matched
block does not consist of exactly one raw-text child (so under the
well-formedness precondition the branch is unreachable); the resulting
`AssertionError` is a distinct, unrecoverable signal that is caught
nowhere: once the already-yielded snippets have run, the file processing
aborts the run with it. -/
theorem C6_assertion_iff_malformed (cs : List AstNode) :
    ((z3_snippets_from_children cs).2 ≠ none ↔
      ∃ c ∈ cs, c.type = "CodeFence" ∧ c.language = "z3-python" ∧
        wellFormedBlock c = false) ∧
    (∀ (O : Nat → ExecBehavior) (f : DocFile) (st st2 : RunState) (e : ExtractError),
      (z3_snippets_from_ast f.ast).2 = some e →
      run_snippets O f.name (z3_snippets_from_ast f.ast).1 1
        { st with events := st.events ++ [Event.print (fileStartLine f.name)] } =
        (st2, none) →
      run_file O f st = (st2, some (RunAbort.assertionFailed e))) :=
  ⟨z3_snippets_err_iff cs,
   fun O f st st2 e herr hsn => run_file_assert O f st st2 e hsn herr⟩

/-- Witness for C6: the malformed sample document runs its first snippet
and then aborts the run with the child-count assertion failure. -/
theorem C6_assertion_iff_malformed_witness :
    run_file oracleAllOk { name := "b.md", ast := sampleBadDoc } initState =
      ((run_snippets oracleAllOk "b.md"
          (z3_snippets_from_ast sampleBadDoc).1 1
          { initState with events := initState.events ++
              [Event.print (fileStartLine "b.md")] }).1,
       some (RunAbort.assertionFailed (ExtractError.wrongChildCount 0))) :=
  (C6_assertion_iff_malformed sampleBadDoc.children).2 oracleAllOk
    { name := "b.md", ast := sampleBadDoc } initState _
    (ExtractError.wrongChildCount 0) (by rfl) (by rfl)

/-- C7: each execution submits exactly the fixed preamble followed by
the snippet text, and both the full composed source and the literal
RESULT marker line are printed before the exec call happens. -/
theorem C7_composed_source (z3_snippet : String) :
    (∀ src, Event.execCall src ∈ execute_snippet_events z3_snippet →
      src = preamble ++ z3_snippet) ∧
    ∃ i j k : Nat, i < k ∧ j < k ∧
      (execute_snippet_events z3_snippet).get? i =
        some (Event.print (preamble ++ z3_snippet)) ∧
      (execute_snippet_events z3_snippet).get? j = some (Event.print "RESULT:") ∧
      (execute_snippet_events z3_snippet).get? k =
        some (Event.execCall (preamble ++ z3_snippet)) := by
  constructor
  · intro src hmem
    simp [execute_snippet_events, composed_src] at hmem
    exact hmem
  · exact ⟨1, 3, 4, by omega, by omega, rfl, rfl, rfl⟩

/-- Witness for C7: the source submitted for the snippet "x = 1" is
exactly the preamble followed by "x = 1". -/
theorem C7_composed_source_witness :
    "from z3 import *\nx = 1" = preamble ++ "x = 1" :=
  (C7_composed_source "x = 1").1 "from z3 import *\nx = 1" (by decide)

/-- C8: the stats block lists exactly the failed records (their repr
line with file name, sequence number and failure detail), in encounter
order and nothing for successful records, followed by the trailing line
giving the error count over the total count; the returned count is the
number of failed records. -/
theorem C8_stats_block (rs : List ExecutionResults) :
    do_stats rs =
      ("=== EXECUTION STATS ===\n" ++ reprLines (failedRecords rs) ++
         "There were " ++ toString (errorCount rs) ++ " errors over " ++
         toString rs.length ++ " snippets\n",
       errorCount rs) :=
  do_stats_spec rs

/-- C9: the extractor examines only the direct children of the document
root: inserting a non-fence node, whatever it nests (for instance a
paragraph holding a tagged fence), changes neither the yielded snippets
nor the outcome records of the file's processing. -/
theorem C9_top_level_only (w : AstNode) (pre post : List AstNode) (name : String)
    (O : Nat → ExecBehavior) (st : RunState) (hw : w.type ≠ "CodeFence") :
    z3_snippets_from_children (pre ++ w :: post) =
      z3_snippets_from_children (pre ++ post) ∧
    run_file O { name := name, ast := AstNode.node "Document" "" "" (pre ++ w :: post) }
        st =
      run_file O { name := name, ast := AstNode.node "Document" "" "" (pre ++ post) }
        st := by
  have hx := z3_snippets_insert_nonfence w hw pre post
  refine ⟨hx, ?_⟩
  simp only [run_file, z3_snippets_from_ast, AstNode.children, hx]

/-- Witness for C9: a paragraph nesting a tagged fence contributes
neither snippets nor records. -/
theorem C9_top_level_only_witness :
    z3_snippets_from_children
        ([sampleFence "z3-python" "a = 1"] ++ sampleWrapper :: []) =
      z3_snippets_from_children ([sampleFence "z3-python" "a = 1"] ++ []) ∧
    run_file oracleAllOk
        { name := "c.md",
          ast := AstNode.node "Document" "" ""
            ([sampleFence "z3-python" "a = 1"] ++ sampleWrapper :: []) } initState =
      run_file oracleAllOk
        { name := "c.md",
          ast := AstNode.node "Document" "" ""
            ([sampleFence "z3-python" "a = 1"] ++ []) } initState :=
  C9_top_level_only sampleWrapper [sampleFence "z3-python" "a = 1"] [] "c.md"
    oracleAllOk initState (by decide)

/-- C10: an exec call that raises anything other than `ExecutionFailed`
still gets its outcome record appended with no failure set (the finally
block runs) before the exception aborts the snippet loop, and an aborted
file loop makes `main` end in that exception instead of an exit code. -/
theorem C10_foreign_exception (O : Nat → ExecBehavior) (name : String) (i : Nat)
    (s : String) (rest : List String) (st : RunState) (e : String)
    (hO : O st.execCount = ExecBehavior.raisesOther e) :
    (run_snippets O name (s :: rest) i st =
        ((run_snippet O name i s st).1, some (RunAbort.uncaught e)) ∧
      (run_snippet O name i s st).1.execution_results = st.execution_results ++
        [{ file_name := name, snippet_id := i, error := none }]) ∧
    (∀ (files : List DocFile) (st1 : RunState) (a : RunAbort),
      run_files O files initState = (st1, some a) →
      main O files = (st1, Except.error a)) := by
  have hspec := run_snippet_spec O name i s st
  rw [hO] at hspec
  refine ⟨⟨?_, ?_⟩, ?_⟩
  · rw [run_snippets, hspec]
  · rw [hspec]
    rfl
  · intro files st1 a h
    unfold main
    rw [h]

/-- Witness for C10: a foreign exception at the first snippet leaves one
record with no failure and aborts the loop. -/
theorem C10_foreign_exception_witness :
    run_snippets oracleOtherRaises "a.md" ["x = 1", "y = 1"] 1 initState =
      ((run_snippet oracleOtherRaises "a.md" 1 "x = 1" initState).1,
       some (RunAbort.uncaught "KeyboardInterrupt")) ∧
    (run_snippet oracleOtherRaises "a.md" 1 "x = 1" initState).1.execution_results =
      initState.execution_results ++
        [{ file_name := "a.md", snippet_id := 1, error := none }] :=
  (C10_foreign_exception oracleOtherRaises "a.md" 1 "x = 1" ["y = 1"] initState
    "KeyboardInterrupt" (by rfl)).1

end Z3DocsExec
